import Mathlib

/-!
Shallow embedding of the MCMC driver `orbitfit_3d.py` of the orvara
repository, together with proofs about its control flow.

Numeric values are modelled as exact rationals.  IEEE non-finite values
(negative infinity, NaN) produced by the prior or the likelihood are
modelled as `none : Option ℚ`, matching the driver's `np.isfinite` test;
`some q` is a finite value.  The external collaborators of the `orbit`
module (parameter decoding, priors, orbital-model kernels, likelihood)
are abstracted as an interface record `OrbitIface`; the driver code
itself is translated statement by statement.  Arrays are modelled as
nested lists; the float32 down-cast applied at serialization time is a
representation change and is not modelled (values stay exact).
-/

namespace Orvara

/-- Diagnostics record returned by `orbit.calcL(..., chisq_resids=True)`:
exactly the fields the serializer reads at lines 165-167 of the driver. -/
structure DiagRecord where
  plx_best : ℚ
  pmra_best : ℚ
  pmdec_best : ℚ
  chisq_sep : ℚ
  chisq_PA : ℚ
  chisq_H : ℚ
  chisq_HG : ℚ
  chisq_G : ℚ
  deriving DecidableEq

/-- Interface of the `orbit` collaborator module as the driver uses it.
`D` is the type of the immutable observation data, `M` the type of the
per-evaluation scratch `Model`.  The mutating kernels (`calc_EA_RPP`,
`calc_RV`, `calc_offsets`, the two proper-motion routines) are modelled
as functions returning the updated model. -/
structure OrbitIface (D M : Type) where
  newModel : D → M
  decode : List ℚ → Nat → Nat → List ℚ
  lnprior : List ℚ → Option ℚ
  calc_EA_RPP : D → List ℚ → M → M
  calc_RV : D → List ℚ → M → M
  calc_offsets : D → List ℚ → M → Nat → M
  calc_PMs_epoch_astrometry : D → M → M
  calc_PMs_no_epoch_astrometry : D → M → M
  calcL : D → List ℚ → M → Option ℚ
  calcL_info : D → List ℚ → M → DiagRecord

/-- Possible results of one call of `lnprob`:
a scalar (possibly negative infinity, modelled as `none`), a diagnostics
record (the `returninfo=True` branch), or a Python `NameError` raised when
the local variable `params` is referenced without ever being bound. -/
inductive LnpResult where
  | scalar : Option ℚ → LnpResult
  | info : DiagRecord → LnpResult
  | nameError : LnpResult
  deriving DecidableEq

/-- Events observable during one evaluation of `lnprob`, used to reason
about which collaborator calls an evaluation performs. -/
inductive Ev where
  | newModel : Ev
  | decode : Nat → Ev
  | priorCheck : Nat → Ev
  | freeModel : Ev
  | calcEA : Nat → Ev
  | calcRV : Nat → Ev
  | calcOffsets : Nat → Ev
  | calcPMepoch : Ev
  | calcPMnoEpoch : Ev
  | evalL : Ev
  deriving DecidableEq

/-- IEEE-style addition of possibly non-finite log values: if either
operand is non-finite the sum is non-finite (the driver only ever meets
negative infinity here, never infinities of opposite sign). -/
def eadd : Option ℚ → Option ℚ → Option ℚ
  | some a, some b => some (a + b)
  | _, _ => none

/-- The per-planet loop of `lnprob` (driver lines 121-130), instrumented
with the list of events it performs.  For each planet index: decode the
parameters, check the prior for finiteness; on a non-finite prior free
the model and short-circuit (`Except.error`), otherwise run the three
orbital-model kernels and continue with the decoded parameters recorded
as the current value of the Python local `params`. -/
def planetLoopT {D M : Type} (O : OrbitIface D M) (dat : D) (np : Nat) (theta : List ℚ) :
    List Nat → M → Option (List ℚ) → List Ev → (Except Unit (M × Option (List ℚ))) × List Ev
  | [], m, p, tr => (Except.ok (m, p), tr)
  | i :: rest, m, _, tr =>
    if (O.lnprior (O.decode theta i np)).isSome then
      planetLoopT O dat np theta rest
        (O.calc_offsets dat (O.decode theta i np)
          (O.calc_RV dat (O.decode theta i np) (O.calc_EA_RPP dat (O.decode theta i np) m)) i)
        (some (O.decode theta i np))
        (tr ++ [Ev.decode i, Ev.priorCheck i] ++ [Ev.calcEA i, Ev.calcRV i, Ev.calcOffsets i])
    else (Except.error (), tr ++ [Ev.decode i, Ev.priorCheck i] ++ [Ev.freeModel])

/-- Instrumented embedding of `lnprob(theta, returninfo)` (driver lines
117-140): allocate a model, run the per-planet loop, then the
proper-motion step selected by `use_epoch_astrometry`, then either the
diagnostics branch or the scalar `lnprior(params) + calcL(...)` return,
where `params` is the Python local left over from the last loop
iteration (a `NameError` if the loop never ran). -/
def lnprobT {D M : Type} (O : OrbitIface D M) (dat : D) (useEpoch : Bool) (np : Nat)
    (theta : List ℚ) (returninfo : Bool) : LnpResult × List Ev :=
  match planetLoopT O dat np theta (List.range np) (O.newModel dat) none [Ev.newModel] with
  | (Except.error _, tr) => (LnpResult.scalar none, tr)
  | (Except.ok (m, pOpt), tr) =>
    let m2 := if useEpoch then O.calc_PMs_epoch_astrometry dat m
              else O.calc_PMs_no_epoch_astrometry dat m
    let tr2 := tr ++ [if useEpoch then Ev.calcPMepoch else Ev.calcPMnoEpoch]
    match pOpt with
    | none => (LnpResult.nameError, tr2)
    | some params =>
      if returninfo then (LnpResult.info (O.calcL_info dat params m2), tr2 ++ [Ev.evalL])
      else (LnpResult.scalar (eadd (O.lnprior params) (O.calcL dat params m2)), tr2 ++ [Ev.evalL])

/-- The value returned by `lnprob`, forgetting the instrumentation. -/
def lnprob {D M : Type} (O : OrbitIface D M) (dat : D) (useEpoch : Bool) (np : Nat)
    (theta : List ℚ) (returninfo : Bool) : LnpResult :=
  (lnprobT O dat useEpoch np theta returninfo).1

/-- One iteration of the model-accumulation part of the planet loop:
`calc_EA_RPP`, `calc_RV`, `calc_offsets` applied for planet `i`. -/
def stepModel {D M : Type} (O : OrbitIface D M) (dat : D) (np : Nat) (theta : List ℚ)
    (m : M) (i : Nat) : M :=
  let params := O.decode theta i np
  O.calc_offsets dat params (O.calc_RV dat params (O.calc_EA_RPP dat params m)) i

/-- The model accumulated over all planets when no prior rejects. -/
def accumModel {D M : Type} (O : OrbitIface D M) (dat : D) (np : Nat) (theta : List ℚ) : M :=
  (List.range np).foldl (stepModel O dat np theta) (O.newModel dat)

/-- The proper-motion step (driver lines 132-135), selected once per
evaluation by the `use_epoch_astrometry` flag. -/
def applyPM {D M : Type} (O : OrbitIface D M) (dat : D) (useEpoch : Bool) (m : M) : M :=
  if useEpoch then O.calc_PMs_epoch_astrometry dat m else O.calc_PMs_no_epoch_astrometry dat m

/-- The events performed by one passing iteration of the planet loop,
for each index of a list of planet indices: decode, prior check, and the
three orbital-model kernels. -/
def goodTrace (l : List Nat) : List Ev :=
  l.flatMap fun i =>
    [Ev.decode i, Ev.priorCheck i, Ev.calcEA i, Ev.calcRV i, Ev.calcOffsets i]

/-- The value of the Python local `params` after the loop has processed
the planet indices `l`: the decoded parameters of the last index of `l`,
or the incoming value when `l` is empty. -/
def lastDecoded {D M : Type} (O : OrbitIface D M) (np : Nat) (theta : List ℚ)
    (p : Option (List ℚ)) (l : List Nat) : Option (List ℚ) :=
  match l.getLast? with
  | some i => some (O.decode theta i np)
  | none => p

/-- Column surgery of the checkpoint-resume path (driver lines 74-76):
column 8 is overwritten with column 9, column 9 with column 10, then
column 0 is divided elementwise by the new column 9 (the parallax). -/
def colShift (r : List ℚ) : List ℚ :=
  let r1 := r.set 8 (r.getD 9 0)
  let r2 := r1.set 9 (r1.getD 10 0)
  r2.set 0 (r2.getD 0 0 / r2.getD 9 0)

/-- The `[:-2]` slice on the last axis: drop the final two columns. -/
def colTrunc (r : List ℚ) : List ℚ := r.take (r.length - 2)

/-- Checkpoint-resume transform (driver lines 73-77): column surgery on
every row, keep the first `ntemps` temperature rungs, drop the last two
columns. -/
def resumePar0 (ck : List (List (List ℚ))) (ntempsArg : Nat) : List (List (List ℚ)) :=
  ((ck.map (fun plane => plane.map colShift)).take ntempsArg).map
    (fun plane => plane.map colTrunc)

/-- The seed guess of the fresh-start path (driver lines 46-59):
`[jit, mpri]` followed, for each planet, by
`[msec, sau, esino, ecoso, inc, asc, lam]`. -/
def initList (nplanets : Nat) : List ℚ :=
  [1/2, 1] ++ (List.range nplanets).flatMap (fun _ => [1/10, 10, 1/2, 1/2, 1, 1, 1])

/-- Fresh-start initial chain (driver lines 56-61): an array of shape
`(ntemps, 100, 2 + 7*nplanets)` holding the seed guess at every walker,
multiplied entrywise by a random perturbation factor.  The factor
`2^(u - 0.5)` with `u` uniform is abstracted as a given function
`perturb` of the (temperature, walker, parameter) index. -/
def freshPar0 (perturb : Nat → Nat → Nat → ℚ) (ntempsArg nplanets : Nat) :
    List (List (List ℚ)) :=
  (List.range ntempsArg).map fun t =>
    (List.range 100).map fun w =>
      (initList nplanets).mapIdx fun k v => v * perturb t w k

/-- The three counts re-derived from the array's shape (driver lines
79-81: `par0[:,0,0].size`, `par0[0,:,0].size`, `par0[0,0,:].size`)
together with the initial chain passed to the sampler. -/
structure SamplerInit where
  ntemps : Nat
  nwalkers : Nat
  ndim : Nat
  par0 : List (List (List ℚ))
  deriving DecidableEq

/-- Embedding of the driver's setup phase, lines 37-81 and 154: build
`par0` from the fresh-start or the checkpoint path, then re-derive
`ntemps`, `nwalkers`, `ndim` from its shape.  The value of
`nwalkersArg` (`args.nwalkers`, line 37) is bound and then overwritten
at line 80 on both paths, so it does not influence the result.  No
statement between line 73 and the `run_mcmc` call at line 155 raises an
error or checks the derived `ndim` against the planet count: this
function is total and is exactly what reaches the sampler. -/
def samplerInit (startFile : Option (List (List (List ℚ)))) (perturb : Nat → Nat → Nat → ℚ)
    (ntempsArg nwalkersArg nplanets : Nat) : SamplerInit :=
  let par0 := match startFile with
    | none => freshPar0 perturb ntempsArg nplanets
    | some ck => resumePar0 ck ntempsArg
  { ntemps := par0.length
    nwalkers := (par0.getD 0 []).length
    ndim := ((par0.getD 0 []).getD 0 []).length
    par0 := par0 }

/-- A nested list is a rectangular array of the given shape. -/
def HasShape (a : List (List (List ℚ))) (T W C : Nat) : Prop :=
  a.length = T ∧ ∀ p ∈ a, p.length = W ∧ ∀ r ∈ p, r.length = C

/-- Observable outcome of the output-writing loop at the end of the
driver (lines 172-177): either some index is written (followed by
`exit()`), or the loop exhausts all 1000 candidates and the script falls
off its last line, terminating normally with nothing written and nothing
reported.  `fatalError` is the outcome the specification describes for
exhaustion; the code never produces it. -/
inductive WriteOutcome where
  | wrote : Nat → WriteOutcome
  | silentExit : WriteOutcome
  | fatalError : WriteOutcome
  deriving DecidableEq

/-- The filename-selection loop (driver lines 172-177): scan indices
0..999 in order, write to the first whose file does not exist
(`os.path.isfile` is the predicate `ex`), silently terminate if none
is free. -/
def serializeOutcome (ex : Nat → Bool) : WriteOutcome :=
  match (List.range 1000).find? (fun i => !(ex i)) with
  | some i => WriteOutcome.wrote i
  | none => WriteOutcome.silentExit

/-- The set of file indices the serializer writes to: at most the single
chosen index (`writeto(..., overwrite=False)` on a name that did not
exist); no other file is touched. -/
def filesWritten (ex : Nat → Bool) : List Nat :=
  match serializeOutcome ex with
  | WriteOutcome.wrote i => [i]
  | _ => []

/-- One row of the diagnostics array `parfit` (driver lines 164-167):
re-invoke `lnprob` in diagnostics mode on the stored sample and read the
eight fields in the order of line 165-167.  If the result is not a
diagnostics record the attribute access `res.plx_best` fails, modelled
as `none`. -/
def parfitRow {D M : Type} (O : OrbitIface D M) (dat : D) (useEpoch : Bool) (np : Nat)
    (theta : List ℚ) : Option (List ℚ) :=
  match lnprob O dat useEpoch np theta true with
  | LnpResult.info r =>
      some [r.plx_best, r.pmra_best, r.pmdec_best, r.chisq_sep, r.chisq_PA,
            r.chisq_H, r.chisq_HG, r.chisq_G]
  | _ => none

/-- The output file (driver lines 160-171): three stacked arrays, the
cold chain (temperature rung 0), its log-posterior trace, and the
recomputed diagnostics.  The float32 down-cast is a representation
change only and is not modelled. -/
structure OutFile where
  chain : List (List (List ℚ))
  lnpost : List (List ℚ)
  parfit : List (List (Option (List ℚ)))
  deriving DecidableEq

/-- Assembly of the output file from the sampler's cold-chain history
`chain0 : step → walker → sample` and log-posterior history `lnp0`,
with `(s0, s1)` the shape of `sample0.lnprobability[0]`. -/
def serializeFile {D M : Type} (O : OrbitIface D M) (dat : D) (useEpoch : Bool) (np : Nat)
    (chain0 : Nat → Nat → List ℚ) (lnp0 : Nat → Nat → ℚ) (s0 s1 : Nat) : OutFile :=
  { chain := (List.range s0).map fun i => (List.range s1).map fun j => chain0 i j
    lnpost := (List.range s0).map fun i => (List.range s1).map fun j => lnp0 i j
    parfit := (List.range s0).map fun i => (List.range s1).map fun j =>
      parfitRow O dat useEpoch np (chain0 i j) }

/-- The list of (retained-step, walker) pairs at which the nested loop of
lines 162-164 invokes the likelihood evaluator in diagnostics mode, in
loop order. -/
def parfitPairs (s0 s1 : Nat) : List (Nat × Nat) :=
  (List.range s0).flatMap fun i => (List.range s1).map fun j => (i, j)

/-- Modelled from the spec: a concrete instance of the `orbit`
collaborator interface used to evaluate the driver embedding on
concrete inputs.  The decoder follows the ParameterVector layout of
section 3 / 4.1 of the specification (shared prefix of two values, then
seven values per planet starting at offset `2 + 7*i`); the prior is
finite exactly when the implied eccentricity satisfies
`esino^2 + ecoso^2 < 1` (section 3 invariant).  The model scratch is a
bare operation counter; the likelihood reports it. -/
def specOrbit : OrbitIface Unit Nat :=
  { newModel := fun _ => 0
    decode := fun theta i _ =>
      [theta.getD 0 0, theta.getD 1 0] ++ (List.range 7).map (fun k => theta.getD (2 + 7*i + k) 0)
    lnprior := fun p => if (p.getD 4 0)^2 + (p.getD 5 0)^2 < 1 then some 0 else none
    calc_EA_RPP := fun _ _ m => m + 1
    calc_RV := fun _ _ m => m + 1
    calc_offsets := fun _ _ m _ => m + 1
    calc_PMs_epoch_astrometry := fun _ m => m + 1
    calc_PMs_no_epoch_astrometry := fun _ m => m + 1
    calcL := fun _ _ m => some (m : ℚ)
    calcL_info := fun _ _ m => ⟨(m : ℚ), 0, 0, 0, 0, 0, 0, 0⟩ }

/-! Helper lemmas about list indexing used throughout the development. -/

lemma aux_getD_map_range {α : Type} (f : Nat → α) {n i : Nat} (hi : i < n) (d : α) :
    ((List.range n).map f).getD i d = f i := by
  simp [List.getD_eq_getElem?_getD, List.getElem?_map, List.getElem?_range hi]

lemma aux_getD_map_lt {α β : Type} (f : α → β) {l : List α} {i : Nat} (hi : i < l.length)
    (d : β) (d0 : α) : (l.map f).getD i d = f (l.getD i d0) := by
  simp [List.getD_eq_getElem?_getD, List.getElem?_map, List.getElem?_eq_getElem hi]

lemma aux_getD_take_lt {α : Type} {l : List α} {n i : Nat} (hi : i < n) (d : α) :
    (l.take n).getD i d = l.getD i d := by
  simp [List.getD_eq_getElem?_getD, List.getElem?_take_of_lt hi]

lemma aux_shape_plane {a : List (List (List ℚ))} {T W C t : Nat}
    (h : HasShape a T W C) (ht : t < T) : (a.getD t []).length = W := by
  obtain ⟨hT, hrest⟩ := h
  have htl : t < a.length := by omega
  have : a.getD t [] = a[t] := by
    simp [List.getD_eq_getElem?_getD, List.getElem?_eq_getElem htl]
  rw [this]
  exact (hrest _ (List.getElem_mem htl)).1

lemma aux_shape_row {a : List (List (List ℚ))} {T W C t w : Nat}
    (h : HasShape a T W C) (ht : t < T) (hw : w < W) :
    ((a.getD t []).getD w []).length = C := by
  obtain ⟨hT, hrest⟩ := h
  have htl : t < a.length := by omega
  have hplane : a.getD t [] = a[t] := by
    simp [List.getD_eq_getElem?_getD, List.getElem?_eq_getElem htl]
  have hp := hrest _ (List.getElem_mem htl)
  have hwl : w < a[t].length := by omega
  have hrow : a[t].getD w [] = a[t][w] := by
    simp [List.getD_eq_getElem?_getD, List.getElem?_eq_getElem hwl]
  rw [hplane, hrow]
  exact hp.2 _ (List.getElem_mem hwl)

lemma aux_initList_length (npl : Nat) : (initList npl).length = 2 + 7 * npl := by
  simp [initList, List.flatMap_def, Function.comp_def, List.map_const', List.sum_replicate,
    smul_eq_mul]
  omega

lemma aux_freshPar0_shape (perturb : Nat → Nat → Nat → ℚ) (nt npl : Nat) :
    HasShape (freshPar0 perturb nt npl) nt 100 (2 + 7 * npl) := by
  refine ⟨by simp [freshPar0], ?_⟩
  intro p hp
  simp only [freshPar0, List.mem_map, List.mem_range] at hp
  obtain ⟨t, _, rfl⟩ := hp
  refine ⟨by simp, ?_⟩
  intro r hr
  simp only [List.mem_map, List.mem_range] at hr
  obtain ⟨w, _, rfl⟩ := hr
  simp [List.length_mapIdx, aux_initList_length]

lemma aux_colShift_length (r : List ℚ) : (colShift r).length = r.length := by
  simp [colShift]

lemma aux_resume_shape {ck : List (List (List ℚ))} {T W C : Nat} (h : HasShape ck T W C)
    (nt : Nat) : HasShape (resumePar0 ck nt) (min nt T) W (C - 2) := by
  obtain ⟨hT, hrest⟩ := h
  constructor
  · simp [resumePar0, hT]
  · intro p hp
    simp only [resumePar0, List.mem_map] at hp
    obtain ⟨q, hq, rfl⟩ := hp
    have hq2 := List.take_subset _ _ hq
    simp only [List.mem_map] at hq2
    obtain ⟨p0, hp0, rfl⟩ := hq2
    obtain ⟨hlen, hrows⟩ := hrest p0 hp0
    refine ⟨by simp [hlen], ?_⟩
    intro r hr
    simp only [List.mem_map] at hr
    obtain ⟨r1, hr1, rfl⟩ := hr
    obtain ⟨r0, hr0, rfl⟩ := hr1
    simp only [colTrunc, List.length_take, aux_colShift_length, hrows r0 hr0]
    omega

lemma aux_find_range_first {n : Nat} {q : Nat → Bool} {i : Nat}
    (h : (List.range n).find? q = some i) : q i = true ∧ ∀ j < i, q j = false := by
  induction n with
  | zero => simp [List.range_zero] at h
  | succ m ih =>
    rw [List.range_succ, List.find?_append] at h
    cases hm : (List.range m).find? q with
    | some i2 =>
      rw [hm] at h
      simp only [Option.or_some] at h
      cases h
      exact ih hm
    | none =>
      rw [hm] at h
      simp only [Option.none_or] at h
      by_cases hq : q m
      · simp only [List.find?, hq, Option.some.injEq] at h
        subst h
        refine ⟨hq, ?_⟩
        intro j hj
        have := List.find?_eq_none.mp hm j (List.mem_range.mpr hj)
        simpa using this
      · simp [List.find?, hq] at h

/-- C10: with zero configured planets the per-planet loop of `lnprob`
never executes (no planet index is ever decoded), the Python local
`params` is never bound, and every invocation of the evaluator fails
with a `NameError` — in either mode — instead of returning a value. -/
theorem lnprob_zero_planets_name_error {D M : Type} (O : OrbitIface D M) (dat : D)
    (useEpoch : Bool) (theta : List ℚ) (returninfo : Bool) :
    (lnprobT O dat useEpoch 0 theta returninfo).1 = LnpResult.nameError ∧
    ∀ i, Ev.decode i ∉ (lnprobT O dat useEpoch 0 theta returninfo).2 := by
  cases useEpoch <;> simp [lnprobT, planetLoopT]

/-- C8: on the fresh-start path the initial chain is built with exactly
100 walkers (shape `(ntemps, 100, 2 + 7*nplanets)`), the sampler's
walker count is re-derived as 100 from that shape, and the value
requested through the `nwalkers` option has no influence on the result. -/
theorem fresh_start_walker_count (perturb : Nat → Nat → Nat → ℚ)
    (ntempsArg nwalkersArg nplanets : Nat) (hnt : 0 < ntempsArg) :
    (samplerInit none perturb ntempsArg nwalkersArg nplanets).nwalkers = 100 ∧
    HasShape (freshPar0 perturb ntempsArg nplanets) ntempsArg 100 (2 + 7 * nplanets) ∧
    ∀ nw2, samplerInit none perturb ntempsArg nwalkersArg nplanets =
      samplerInit none perturb ntempsArg nw2 nplanets := by
  refine ⟨?_, aux_freshPar0_shape .., fun _ => rfl⟩
  have hsh := aux_freshPar0_shape perturb ntempsArg nplanets
  simp only [samplerInit]
  exact aux_shape_plane hsh hnt

/-- Witness for C8 at a concrete input: one temperature, one planet,
and a requested walker count of 7, which is ignored in favor of 100. -/
theorem fresh_start_walker_count_witness :
    (samplerInit none (fun _ _ _ => 1) 1 7 1).nwalkers = 100 ∧
    HasShape (freshPar0 (fun _ _ _ => 1) 1 1) 1 100 (2 + 7 * 1) ∧
    ∀ nw2, samplerInit none (fun _ _ _ => 1) 1 7 1 =
      samplerInit none (fun _ _ _ => 1) 1 nw2 1 :=
  fresh_start_walker_count (fun _ _ _ => 1) 1 7 1 (by decide)

/-- C4, amended: the driver performs no validation of `ndim` against the
planet count.  On the fresh-start path `ndim = 2 + 7*nplanets` holds by
construction; the checkpoint path never consults the planet count at all
(the setup result is literally independent of it), and an 11-column
checkpoint always yields `ndim = 9` whatever the configured planet
count, after which sampling begins with the mismatch undetected. -/
theorem ndim_no_validation :
    (∀ (perturb : Nat → Nat → Nat → ℚ) (nt nw npl : Nat), 0 < nt →
      (samplerInit none perturb nt nw npl).ndim = 2 + 7 * npl) ∧
    (∀ (ck : List (List (List ℚ))) (perturb perturb2 : Nat → Nat → Nat → ℚ)
      (nt nw npl npl2 : Nat),
      samplerInit (some ck) perturb nt nw npl = samplerInit (some ck) perturb2 nt nw npl2) ∧
    (∀ (ck : List (List (List ℚ))) (T W : Nat) (perturb : Nat → Nat → Nat → ℚ)
      (nt nw npl : Nat), HasShape ck T W 11 → 0 < min nt T → 0 < W →
      (samplerInit (some ck) perturb nt nw npl).ndim = 9) := by
  refine ⟨?_, fun _ _ _ _ _ _ _ => rfl, ?_⟩
  · intro perturb nt nw npl hnt
    have hsh := aux_freshPar0_shape perturb nt npl
    have h100 : (0:Nat) < 100 := by decide
    simp only [samplerInit]
    exact aux_shape_row hsh hnt h100
  · intro ck T W perturb nt nw npl hsh hnt hW
    have hres := aux_resume_shape hsh nt
    simp only [samplerInit]
    exact aux_shape_row hres hnt hW

/-- Witness for C4's amended statement at concrete inputs: a fresh start
with three planets gives `ndim = 23`; a 1 x 1 x 11 checkpoint gives
`ndim = 9` even with five configured planets. -/
theorem ndim_no_validation_witness :
    (samplerInit none (fun _ _ _ => 1) 1 100 3).ndim = 2 + 7 * 3 ∧
    (samplerInit (some [[[1, 1, 1, 1, 1, 1, 1, 1, 1, 1, 1]]]) (fun _ _ _ => 1)
      1 100 5).ndim = 9 :=
  ⟨ndim_no_validation.1 (fun _ _ _ => 1) 1 100 3 (by decide),
   ndim_no_validation.2.2 [[[1, 1, 1, 1, 1, 1, 1, 1, 1, 1, 1]]] 1 1 (fun _ _ _ => 1) 1 100 5
     (by constructor <;> simp [HasShape]) (by decide) (by decide)⟩

/-- Counterexample to C4 as stated: the driver's setup phase completes
and hands the sampler an initial state whose `ndim` is 9 while the
configured planet count 2 demands `2 + 7*2 = 16` — nothing detects or
reports the mismatch before sampling begins. -/
theorem ndim_mismatch_counterexample :
    (samplerInit (some [[[1, 1, 1, 1, 1, 1, 1, 1, 1, 1, 1]]]) (fun _ _ _ => 1)
      1 100 2).ndim = 9 ∧ 9 ≠ 2 + 7 * 2 := by
  constructor
  · rfl
  · decide

/-- C5, amended: when every one of the 1000 candidate filenames already
exists, the loop at the end of the driver exhausts without writing
anything and the script simply ends: termination is silent, no error is
raised or reported and no file is written. -/
theorem serializer_exhaustion_silent (ex : Nat → Bool) (h : ∀ i < 1000, ex i = true) :
    serializeOutcome ex = WriteOutcome.silentExit ∧ filesWritten ex = [] := by
  have hfind : (List.range 1000).find? (fun i => !(ex i)) = none := by
    rw [List.find?_eq_none]
    intro x hx
    simp [h x (List.mem_range.mp hx)]
  constructor
  · simp [serializeOutcome, hfind]
  · simp [filesWritten, serializeOutcome, hfind]

/-- Witness for C5's amended statement: the all-taken directory. -/
theorem serializer_exhaustion_silent_witness :
    serializeOutcome (fun _ => true) = WriteOutcome.silentExit ∧
    filesWritten (fun _ => true) = [] :=
  serializer_exhaustion_silent (fun _ => true) (fun _ _ => rfl)

/-- Counterexample to C5 as stated: with all 1000 candidate names taken
the outcome is the silent fall-through termination, not a fatal error. -/
theorem serializer_exhaustion_counterexample :
    serializeOutcome (fun _ => true) = WriteOutcome.silentExit ∧
    WriteOutcome.silentExit ≠ WriteOutcome.fatalError := by
  set_option maxRecDepth 10000 in decide

/-- C6: with files occupying exactly indices 0 through 41 the serializer
writes to index 42 and touches no file of index 0 through 41; in
general, whenever it writes to an index, that index had no existing file
and every smaller index did — the first free candidate is used and no
existing file is ever overwritten. -/
theorem serializer_first_free_index :
    (∀ ex : Nat → Bool, (∀ i, ex i = true ↔ i ≤ 41) →
      serializeOutcome ex = WriteOutcome.wrote 42 ∧
      filesWritten ex = [42] ∧ ∀ j ≤ 41, j ∉ filesWritten ex) ∧
    (∀ (ex : Nat → Bool) (i : Nat), serializeOutcome ex = WriteOutcome.wrote i →
      ex i = false ∧ ∀ j < i, ex j = true) := by
  have general : ∀ (ex : Nat → Bool) (i : Nat),
      serializeOutcome ex = WriteOutcome.wrote i → ex i = false ∧ ∀ j < i, ex j = true := by
    intro ex i h
    unfold serializeOutcome at h
    cases hf : (List.range 1000).find? (fun k => !(ex k)) with
    | none => rw [hf] at h; cases h
    | some k =>
      rw [hf] at h
      cases h
      obtain ⟨hk, hlt⟩ := aux_find_range_first hf
      refine ⟨by simpa using hk, ?_⟩
      intro j hj
      have := hlt j hj
      simpa using this
  refine ⟨?_, general⟩
  intro ex hex
  have hw : serializeOutcome ex = WriteOutcome.wrote 42 := by
    unfold serializeOutcome
    cases hf : (List.range 1000).find? (fun k => !(ex k)) with
    | none =>
      exfalso
      have h42 := List.find?_eq_none.mp hf 42 (List.mem_range.mpr (by decide))
      simp only [Bool.not_eq_true, Bool.not_eq_false] at h42
      have : (42:Nat) ≤ 41 := (hex 42).mp (by simpa using h42)
      omega
    | some k =>
      obtain ⟨hk, hlt⟩ := aux_find_range_first hf
      have hkfree : ex k = false := by simpa using hk
      have hk42 : 42 ≤ k := by
        by_contra hcon
        have : k ≤ 41 := by omega
        have : ex k = true := (hex k).mpr this
        rw [this] at hkfree
        cases hkfree
      have hk42r : k ≤ 42 := by
        by_contra hcon
        have h42k : (42:Nat) < k := by omega
        have h42f := hlt 42 h42k
        have h42t : ex 42 = true := by simpa using h42f
        have : (42:Nat) ≤ 41 := (hex 42).mp h42t
        omega
      have : k = 42 := by omega
      subst this
      rfl
  refine ⟨hw, ?_, ?_⟩
  · simp [filesWritten, hw]
  · intro j hj
    simp only [filesWritten, hw, List.mem_singleton]
    omega

/-- Witness for C6: the directory holding exactly files 0 through 41. -/
theorem serializer_first_free_index_witness :
    serializeOutcome (fun i => decide (i ≤ 41)) = WriteOutcome.wrote 42 ∧
    filesWritten (fun i => decide (i ≤ 41)) = [42] ∧
    ∀ j ≤ 41, j ∉ filesWritten (fun i => decide (i ≤ 41)) :=
  serializer_first_free_index.1 (fun i => decide (i ≤ 41)) (fun i => by simp)

lemma aux_lastDecoded_cons {D M : Type} (O : OrbitIface D M) (np : Nat) (theta : List ℚ)
    (p : Option (List ℚ)) (i : Nat) (rest : List Nat) :
    lastDecoded O np theta p (i :: rest) =
      lastDecoded O np theta (some (O.decode theta i np)) rest := by
  cases rest with
  | nil => simp [lastDecoded]
  | cons j r2 =>
    simp only [lastDecoded, List.getLast?_cons_cons]
    cases h : (j :: r2).getLast? with
    | none => simp at h
    | some k => rfl

lemma aux_planetLoop_ok {D M : Type} (O : OrbitIface D M) (dat : D) (np : Nat)
    (theta : List ℚ) (l : List Nat) :
    ∀ (m : M) (p : Option (List ℚ)) (tr : List Ev),
      (∀ i ∈ l, (O.lnprior (O.decode theta i np)).isSome = true) →
      planetLoopT O dat np theta l m p tr =
        (Except.ok (l.foldl (stepModel O dat np theta) m, lastDecoded O np theta p l),
         tr ++ goodTrace l) := by
  induction l with
  | nil => intro m p tr _; simp [planetLoopT, lastDecoded, goodTrace]
  | cons i rest ih =>
    intro m p tr h
    have hi : (O.lnprior (O.decode theta i np)).isSome = true := h i (by simp)
    rw [planetLoopT, if_pos hi, ih _ _ _ (fun j hj => h j (by simp [hj]))]
    rw [aux_lastDecoded_cons]
    simp [goodTrace, stepModel, List.append_assoc]

lemma aux_planetLoop_bad {D M : Type} (O : OrbitIface D M) (dat : D) (np : Nat)
    (theta : List ℚ) (l1 : List Nat) (i0 : Nat) (l2 : List Nat) :
    ∀ (m : M) (p : Option (List ℚ)) (tr : List Ev),
      (∀ i ∈ l1, (O.lnprior (O.decode theta i np)).isSome = true) →
      (O.lnprior (O.decode theta i0 np)).isSome = false →
      planetLoopT O dat np theta (l1 ++ i0 :: l2) m p tr =
        (Except.error (),
         tr ++ goodTrace l1 ++ [Ev.decode i0, Ev.priorCheck i0, Ev.freeModel]) := by
  induction l1 with
  | nil =>
    intro m p tr _ hbad
    rw [List.nil_append, planetLoopT, if_neg (by simp [hbad])]
    simp [goodTrace]
  | cons i rest ih =>
    intro m p tr h hbad
    have hi : (O.lnprior (O.decode theta i np)).isSome = true := h i (by simp)
    rw [List.cons_append, planetLoopT, if_pos hi,
      ih _ _ _ (fun j hj => h j (by simp [hj])) hbad]
    simp [goodTrace, List.append_assoc]

lemma aux_range_split {i n : Nat} (h : i < n) :
    ∃ L, List.range n = List.range i ++ i :: L := by
  induction n with
  | zero => omega
  | succ m ih =>
    rcases Nat.lt_or_ge i m with hm | hm
    · obtain ⟨L, hL⟩ := ih hm
      exact ⟨L ++ [m], by rw [List.range_succ, hL]; simp⟩
    · have hi : i = m := by omega
      subst hi
      exact ⟨[], by rw [List.range_succ]⟩

lemma aux_getLast_range {n : Nat} (h : 0 < n) : (List.range n).getLast? = some (n - 1) := by
  cases n with
  | zero => omega
  | succ m => rw [List.range_succ]; simp [List.getLast?_concat]

lemma aux_lnprobT_bad {D M : Type} (O : OrbitIface D M) (dat : D) (useEpoch : Bool)
    (np : Nat) (theta : List ℚ) (returninfo : Bool) (i0 : Nat) (hlt : i0 < np)
    (hbad : (O.lnprior (O.decode theta i0 np)).isSome = false)
    (hgood : ∀ j < i0, (O.lnprior (O.decode theta j np)).isSome = true) :
    lnprobT O dat useEpoch np theta returninfo =
      (LnpResult.scalar none,
       [Ev.newModel] ++ goodTrace (List.range i0) ++
         [Ev.decode i0, Ev.priorCheck i0, Ev.freeModel]) := by
  obtain ⟨L, hL⟩ := aux_range_split hlt
  unfold lnprobT
  rw [hL, aux_planetLoop_bad O dat np theta (List.range i0) i0 L _ _ _
    (fun j hj => hgood j (List.mem_range.mp hj)) hbad]

/-- C1: when every planet's prior is finite, `lnprob` with diagnostics
off returns the prior of the LAST planet's decoded parameters (index
`P - 1`) plus the log-likelihood of the model accumulated over all
planets — the priors of planets `0 .. P-2` do not appear in the sum. -/
theorem lnprob_last_prior_plus_likelihood {D M : Type} (O : OrbitIface D M) (dat : D)
    (useEpoch : Bool) (np : Nat) (theta : List ℚ) (hP : 1 ≤ np)
    (hfin : ∀ i < np, (O.lnprior (O.decode theta i np)).isSome = true) :
    lnprob O dat useEpoch np theta false =
      LnpResult.scalar (eadd (O.lnprior (O.decode theta (np - 1) np))
        (O.calcL dat (O.decode theta (np - 1) np)
          (applyPM O dat useEpoch (accumModel O dat np theta)))) := by
  have hfin2 : ∀ i ∈ List.range np, (O.lnprior (O.decode theta i np)).isSome = true :=
    fun i hi => hfin i (List.mem_range.mp hi)
  have hlast : lastDecoded O np theta none (List.range np) =
      some (O.decode theta (np - 1) np) := by
    simp [lastDecoded, aux_getLast_range (by omega : 0 < np)]
  unfold lnprob lnprobT
  rw [aux_planetLoop_ok O dat np theta (List.range np) _ _ _ hfin2, hlast]
  simp [applyPM, accumModel]

/-- Witness for C1: one planet, all-zero parameter vector, the concrete
spec-modelled collaborator. -/
theorem lnprob_last_prior_plus_likelihood_witness :
    lnprob specOrbit () false 1 [0, 0, 0, 0, 0, 0, 0, 0, 0] false =
      LnpResult.scalar (eadd (specOrbit.lnprior (specOrbit.decode [0, 0, 0, 0, 0, 0, 0, 0, 0] 0 1))
        (specOrbit.calcL () (specOrbit.decode [0, 0, 0, 0, 0, 0, 0, 0, 0] 0 1)
          (applyPM specOrbit () false (accumModel specOrbit () 1 [0, 0, 0, 0, 0, 0, 0, 0, 0])))) :=
  lnprob_last_prior_plus_likelihood specOrbit () false 1 _ (by decide)
    (by
      intro i hi
      have hi0 : i = 0 := by omega
      subst hi0
      norm_num [specOrbit, List.range_succ])

/-- C2, amended: on a parameter vector whose FIRST non-finite-prior
planet has index `i0`, `lnprob` frees the scratch model and returns
negative infinity; planets are decoded and prior-checked exactly up to
index `i0`, the orbital-model kernels run exactly for the planets
before `i0`, and the proper-motion and likelihood computations are
never invoked. -/
theorem lnprob_short_circuit {D M : Type} (O : OrbitIface D M) (dat : D)
    (useEpoch : Bool) (np : Nat) (theta : List ℚ) (returninfo : Bool) (i0 : Nat)
    (hlt : i0 < np)
    (hbad : (O.lnprior (O.decode theta i0 np)).isSome = false)
    (hgood : ∀ j < i0, (O.lnprior (O.decode theta j np)).isSome = true) :
    (lnprobT O dat useEpoch np theta returninfo).1 = LnpResult.scalar none ∧
    Ev.freeModel ∈ (lnprobT O dat useEpoch np theta returninfo).2 ∧
    (∀ j, Ev.decode j ∈ (lnprobT O dat useEpoch np theta returninfo).2 ↔ j ≤ i0) ∧
    (∀ j, Ev.priorCheck j ∈ (lnprobT O dat useEpoch np theta returninfo).2 ↔ j ≤ i0) ∧
    (∀ j, Ev.calcEA j ∈ (lnprobT O dat useEpoch np theta returninfo).2 ↔ j < i0) ∧
    Ev.calcPMepoch ∉ (lnprobT O dat useEpoch np theta returninfo).2 ∧
    Ev.calcPMnoEpoch ∉ (lnprobT O dat useEpoch np theta returninfo).2 ∧
    Ev.evalL ∉ (lnprobT O dat useEpoch np theta returninfo).2 := by
  rw [aux_lnprobT_bad O dat useEpoch np theta returninfo i0 hlt hbad hgood]
  refine ⟨rfl, by simp, ?_, ?_, ?_, by simp [goodTrace], by simp [goodTrace],
    by simp [goodTrace]⟩
  · intro j
    simp [goodTrace, List.mem_flatMap, List.mem_range]
    omega
  · intro j
    simp [goodTrace, List.mem_flatMap, List.mem_range]
    omega
  · intro j
    simp [goodTrace, List.mem_flatMap, List.mem_range]

/-- Witness for C2's amended statement: two planets, planet 0 valid,
planet 1 with implied eccentricity 2 (non-finite prior). -/
theorem lnprob_short_circuit_witness :
    (lnprobT specOrbit () false 2 [0, 1, 0, 0, 0, 0, 0, 0, 0, 0, 0, 1, 1, 0, 0, 0] false).1 =
      LnpResult.scalar none ∧
    Ev.freeModel ∈ (lnprobT specOrbit () false 2
      [0, 1, 0, 0, 0, 0, 0, 0, 0, 0, 0, 1, 1, 0, 0, 0] false).2 ∧
    (∀ j, Ev.decode j ∈ (lnprobT specOrbit () false 2
      [0, 1, 0, 0, 0, 0, 0, 0, 0, 0, 0, 1, 1, 0, 0, 0] false).2 ↔ j ≤ 1) ∧
    (∀ j, Ev.priorCheck j ∈ (lnprobT specOrbit () false 2
      [0, 1, 0, 0, 0, 0, 0, 0, 0, 0, 0, 1, 1, 0, 0, 0] false).2 ↔ j ≤ 1) ∧
    (∀ j, Ev.calcEA j ∈ (lnprobT specOrbit () false 2
      [0, 1, 0, 0, 0, 0, 0, 0, 0, 0, 0, 1, 1, 0, 0, 0] false).2 ↔ j < 1) ∧
    Ev.calcPMepoch ∉ (lnprobT specOrbit () false 2
      [0, 1, 0, 0, 0, 0, 0, 0, 0, 0, 0, 1, 1, 0, 0, 0] false).2 ∧
    Ev.calcPMnoEpoch ∉ (lnprobT specOrbit () false 2
      [0, 1, 0, 0, 0, 0, 0, 0, 0, 0, 0, 1, 1, 0, 0, 0] false).2 ∧
    Ev.evalL ∉ (lnprobT specOrbit () false 2
      [0, 1, 0, 0, 0, 0, 0, 0, 0, 0, 0, 1, 1, 0, 0, 0] false).2 :=
  lnprob_short_circuit specOrbit () false 2 _ false 1 (by decide)
    (by norm_num [specOrbit, List.range_succ])
    (by
      intro j hj
      have hj0 : j = 0 := by omega
      subst hj0
      norm_num [specOrbit, List.range_succ])

/-- Counterexample to C2 as stated: on a vector whose planet 1 has a
non-finite prior (so the claim's hypothesis holds), the orbital-model
kernel `calc_EA_RPP` IS invoked (for planet 0), contradicting the
claim that the orbital-model computations are never invoked in that
evaluation. -/
theorem lnprob_short_circuit_counterexample :
    (specOrbit.lnprior (specOrbit.decode
      [0, 1, 0, 0, 0, 0, 0, 0, 0, 0, 0, 1, 1, 0, 0, 0] 1 2)).isSome = false ∧
    Ev.calcEA 0 ∈ (lnprobT specOrbit () false 2
      [0, 1, 0, 0, 0, 0, 0, 0, 0, 0, 0, 1, 1, 0, 0, 0] false).2 := by
  constructor
  · norm_num [specOrbit, List.range_succ]
  · norm_num [lnprobT, planetLoopT, specOrbit, List.range_succ]

/-- C9: when some planet's prior is non-finite, `lnprob` invoked in
diagnostics mode still returns the scalar negative infinity (the
short-circuit precedes the diagnostics branch), so the serializer's
field accesses on the result fail instead of producing a diagnostics
row. -/
theorem diag_mode_rejection {D M : Type} (O : OrbitIface D M) (dat : D)
    (useEpoch : Bool) (np : Nat) (theta : List ℚ)
    (h : ∃ i, i < np ∧ (O.lnprior (O.decode theta i np)).isSome = false) :
    lnprob O dat useEpoch np theta true = LnpResult.scalar none ∧
    parfitRow O dat useEpoch np theta = none := by
  have hP : ∃ i, i < np ∧ (O.lnprior (O.decode theta i np)).isSome = false := h
  have hspec := Nat.find_spec hP
  have hval : lnprob O dat useEpoch np theta true = LnpResult.scalar none := by
    unfold lnprob
    rw [aux_lnprobT_bad O dat useEpoch np theta true (Nat.find hP) hspec.1 hspec.2 ?_]
    intro j hj
    have hmin := Nat.find_min hP hj
    have hjnp : j < np := by omega
    simp only [hjnp, true_and] at hmin
    cases hb : (O.lnprior (O.decode theta j np)).isSome with
    | false => exact absurd hb hmin
    | true => rfl
  refine ⟨hval, ?_⟩
  unfold parfitRow
  rw [hval]

/-- Witness for C9: one planet with implied eccentricity 2. -/
theorem diag_mode_rejection_witness :
    lnprob specOrbit () false 1 [0, 1, 0, 0, 1, 1, 0, 0, 0] true = LnpResult.scalar none ∧
    parfitRow specOrbit () false 1 [0, 1, 0, 0, 1, 1, 0, 0, 0] = none :=
  diag_mode_rejection specOrbit () false 1 _
    ⟨0, by omega, by norm_num [specOrbit, List.range_succ]⟩

lemma aux_row_transform {r : List ℚ} (h : r.length = 11) :
    colTrunc (colShift r) =
      [r.getD 0 0 / r.getD 10 0, r.getD 1 0, r.getD 2 0, r.getD 3 0, r.getD 4 0,
       r.getD 5 0, r.getD 6 0, r.getD 7 0, r.getD 9 0] := by
  rcases r with _ | ⟨a0, r⟩; · simp at h
  rcases r with _ | ⟨a1, r⟩; · simp at h
  rcases r with _ | ⟨a2, r⟩; · simp at h
  rcases r with _ | ⟨a3, r⟩; · simp at h
  rcases r with _ | ⟨a4, r⟩; · simp at h
  rcases r with _ | ⟨a5, r⟩; · simp at h
  rcases r with _ | ⟨a6, r⟩; · simp at h
  rcases r with _ | ⟨a7, r⟩; · simp at h
  rcases r with _ | ⟨a8, r⟩; · simp at h
  rcases r with _ | ⟨a9, r⟩; · simp at h
  rcases r with _ | ⟨a10, r⟩; · simp at h
  rcases r with _ | ⟨a11, r⟩
  · rfl
  · simp [List.length_cons] at h

/-- C3: resuming from a rectangular checkpoint of shape `(T, W, 11)`
with requested temperature count `nt` yields an array of shape
`(min nt T, W, 9)`; the three sampler counts are re-derived from that
shape (discarding the requested values); and every row is the original
row with column 9 shifted to 8, column 10 to 9, column 0 divided by the
post-shift column 9, and the last two columns dropped. -/
theorem resume_checkpoint_shape (ck : List (List (List ℚ))) (T W nt : Nat)
    (perturb : Nat → Nat → Nat → ℚ) (nwArg npl : Nat)
    (hsh : HasShape ck T W 11) (hnt : 0 < min nt T) (hW : 0 < W) :
    HasShape (resumePar0 ck nt) (min nt T) W 9 ∧
    (samplerInit (some ck) perturb nt nwArg npl).ntemps = min nt T ∧
    (samplerInit (some ck) perturb nt nwArg npl).nwalkers = W ∧
    (samplerInit (some ck) perturb nt nwArg npl).ndim = 9 ∧
    ∀ t w, t < min nt T → w < W →
      ((resumePar0 ck nt).getD t []).getD w [] =
        [((ck.getD t []).getD w []).getD 0 0 / ((ck.getD t []).getD w []).getD 10 0,
         ((ck.getD t []).getD w []).getD 1 0, ((ck.getD t []).getD w []).getD 2 0,
         ((ck.getD t []).getD w []).getD 3 0, ((ck.getD t []).getD w []).getD 4 0,
         ((ck.getD t []).getD w []).getD 5 0, ((ck.getD t []).getD w []).getD 6 0,
         ((ck.getD t []).getD w []).getD 7 0, ((ck.getD t []).getD w []).getD 9 0] := by
  have hres : HasShape (resumePar0 ck nt) (min nt T) W 9 := aux_resume_shape hsh nt
  refine ⟨hres, hres.1, aux_shape_plane hres hnt, aux_shape_row hres hnt hW, ?_⟩
  intro t w ht hw
  have htT : t < T := by omega
  have htn : t < nt := by omega
  have hplane : (resumePar0 ck nt).getD t [] =
      (ck.getD t []).map (fun r => colTrunc (colShift r)) := by
    unfold resumePar0
    have h1 : t < ((ck.map (fun plane => plane.map colShift)).take nt).length := by
      simp [hsh.1]
      omega
    rw [aux_getD_map_lt _ h1 [] [], aux_getD_take_lt htn,
      aux_getD_map_lt _ (by simp [hsh.1]; omega) [] [], List.map_map]
    rfl
  have hwlen : w < (ck.getD t []).length := by
    rw [aux_shape_plane hsh htT]
    omega
  rw [hplane, aux_getD_map_lt _ hwlen [] []]
  exact aux_row_transform (aux_shape_row hsh htT hw)

/-- Witness for C3: a (5, 100, 11) all-ones checkpoint with requested
temperature count 3 yields shape (3, 100, 9) and re-derived counts. -/
theorem resume_checkpoint_shape_witness :
    HasShape (resumePar0 (List.replicate 5 (List.replicate 100 (List.replicate 11 (1:ℚ)))) 3)
      (min 3 5) 100 9 ∧
    (samplerInit (some (List.replicate 5 (List.replicate 100 (List.replicate 11 (1:ℚ)))))
      (fun _ _ _ => 1) 3 100 1).ntemps = min 3 5 ∧
    (samplerInit (some (List.replicate 5 (List.replicate 100 (List.replicate 11 (1:ℚ)))))
      (fun _ _ _ => 1) 3 100 1).nwalkers = 100 ∧
    (samplerInit (some (List.replicate 5 (List.replicate 100 (List.replicate 11 (1:ℚ)))))
      (fun _ _ _ => 1) 3 100 1).ndim = 9 ∧
    ∀ t w, t < min 3 5 → w < 100 →
      ((resumePar0 (List.replicate 5 (List.replicate 100 (List.replicate 11 (1:ℚ)))) 3).getD
          t []).getD w [] =
        [(((List.replicate 5 (List.replicate 100 (List.replicate 11 (1:ℚ)))).getD
            t []).getD w []).getD 0 0 /
           (((List.replicate 5 (List.replicate 100 (List.replicate 11 (1:ℚ)))).getD
            t []).getD w []).getD 10 0,
         (((List.replicate 5 (List.replicate 100 (List.replicate 11 (1:ℚ)))).getD
            t []).getD w []).getD 1 0,
         (((List.replicate 5 (List.replicate 100 (List.replicate 11 (1:ℚ)))).getD
            t []).getD w []).getD 2 0,
         (((List.replicate 5 (List.replicate 100 (List.replicate 11 (1:ℚ)))).getD
            t []).getD w []).getD 3 0,
         (((List.replicate 5 (List.replicate 100 (List.replicate 11 (1:ℚ)))).getD
            t []).getD w []).getD 4 0,
         (((List.replicate 5 (List.replicate 100 (List.replicate 11 (1:ℚ)))).getD
            t []).getD w []).getD 5 0,
         (((List.replicate 5 (List.replicate 100 (List.replicate 11 (1:ℚ)))).getD
            t []).getD w []).getD 6 0,
         (((List.replicate 5 (List.replicate 100 (List.replicate 11 (1:ℚ)))).getD
            t []).getD w []).getD 7 0,
         (((List.replicate 5 (List.replicate 100 (List.replicate 11 (1:ℚ)))).getD
            t []).getD w []).getD 9 0] :=
  resume_checkpoint_shape _ 5 100 3 (fun _ _ _ => 1) 100 1
    (by
      refine ⟨by simp, ?_⟩
      intro p hp
      rw [List.eq_of_mem_replicate hp]
      refine ⟨by simp, ?_⟩
      intro r hr
      rw [List.eq_of_mem_replicate hr]
      simp)
    (by decide) (by decide)

/-- C7: the serializer's output consists of the three arrays (cold
chain, its log-posterior trace, and diagnostics); the diagnostics entry
for each retained-step/walker pair is recomputed by re-invoking `lnprob`
in diagnostics mode on the stored cold-chain sample, with the eight
fields in the order parallax, proper motion RA, proper motion Dec,
chi-square separation, chi-square position angle, chi-square Hip,
chi-square Hip+Gaia, chi-square Gaia; and the nested loop touches each
pair exactly once. -/
theorem serializer_diagnostics_recompute {D M : Type} (O : OrbitIface D M) (dat : D)
    (useEpoch : Bool) (np : Nat) (chain0 : Nat → Nat → List ℚ) (lnp0 : Nat → Nat → ℚ)
    (s0 s1 i j : Nat) (hi : i < s0) (hj : j < s1) :
    ((serializeFile O dat useEpoch np chain0 lnp0 s0 s1).chain.getD i []).getD j [] =
      chain0 i j ∧
    ((serializeFile O dat useEpoch np chain0 lnp0 s0 s1).lnpost.getD i []).getD j 0 =
      lnp0 i j ∧
    ((serializeFile O dat useEpoch np chain0 lnp0 s0 s1).parfit.getD i []).getD j none =
      parfitRow O dat useEpoch np (chain0 i j) ∧
    parfitRow O dat useEpoch np (chain0 i j) =
      (match lnprob O dat useEpoch np (chain0 i j) true with
       | LnpResult.info r =>
           some [r.plx_best, r.pmra_best, r.pmdec_best, r.chisq_sep, r.chisq_PA,
                 r.chisq_H, r.chisq_HG, r.chisq_G]
       | _ => none) ∧
    (i, j) ∈ parfitPairs s0 s1 ∧
    (parfitPairs s0 s1).Nodup ∧
    (∀ q ∈ parfitPairs s0 s1, q.1 < s0 ∧ q.2 < s1) ∧
    (parfitPairs s0 s1).length = s0 * s1 := by
  refine ⟨?_, ?_, ?_, rfl, ?_, ?_, ?_, ?_⟩
  · rw [serializeFile]
    rw [aux_getD_map_range _ hi, aux_getD_map_range _ hj]
  · rw [serializeFile]
    rw [aux_getD_map_range _ hi, aux_getD_map_range _ hj]
  · rw [serializeFile]
    rw [aux_getD_map_range _ hi, aux_getD_map_range _ hj]
  · simp only [parfitPairs, List.mem_flatMap, List.mem_map, List.mem_range]
    exact ⟨i, hi, j, hj, rfl⟩
  · rw [parfitPairs, List.nodup_flatMap]
    constructor
    · intro x _
      exact (List.nodup_range s1).map (fun a b hab => by simpa using hab)
    · refine List.Pairwise.imp ?_ (List.pairwise_lt_range s0)
      intro a b hab
      simp only [Function.onFun, List.Disjoint, List.mem_map, List.mem_range]
      rintro x ⟨y, hy, rfl⟩ ⟨z, hz, hzx⟩
      have : b = a := congrArg Prod.fst hzx
      omega
  · intro q hq
    simp only [parfitPairs, List.mem_flatMap, List.mem_map, List.mem_range] at hq
    obtain ⟨a, ha, b, hb, rfl⟩ := hq
    exact ⟨ha, hb⟩
  · simp [parfitPairs, List.flatMap_def, Function.comp_def, List.map_const',
      List.sum_replicate, smul_eq_mul, Nat.mul_comm]

/-- Witness for C7: a single retained step and walker with the concrete
spec-modelled collaborator and an all-zero stored sample. -/
theorem serializer_diagnostics_recompute_witness :
    ((serializeFile specOrbit () false 1 (fun _ _ => [0, 0, 0, 0, 0, 0, 0, 0, 0])
        (fun _ _ => 0) 1 1).chain.getD 0 []).getD 0 [] = [0, 0, 0, 0, 0, 0, 0, 0, 0] ∧
    ((serializeFile specOrbit () false 1 (fun _ _ => [0, 0, 0, 0, 0, 0, 0, 0, 0])
        (fun _ _ => 0) 1 1).lnpost.getD 0 []).getD 0 0 = 0 ∧
    ((serializeFile specOrbit () false 1 (fun _ _ => [0, 0, 0, 0, 0, 0, 0, 0, 0])
        (fun _ _ => 0) 1 1).parfit.getD 0 []).getD 0 none =
      parfitRow specOrbit () false 1 [0, 0, 0, 0, 0, 0, 0, 0, 0] ∧
    parfitRow specOrbit () false 1 [0, 0, 0, 0, 0, 0, 0, 0, 0] =
      (match lnprob specOrbit () false 1 [0, 0, 0, 0, 0, 0, 0, 0, 0] true with
       | LnpResult.info r =>
           some [r.plx_best, r.pmra_best, r.pmdec_best, r.chisq_sep, r.chisq_PA,
                 r.chisq_H, r.chisq_HG, r.chisq_G]
       | _ => none) ∧
    (0, 0) ∈ parfitPairs 1 1 ∧
    (parfitPairs 1 1).Nodup ∧
    (∀ q ∈ parfitPairs 1 1, q.1 < 1 ∧ q.2 < 1) ∧
    (parfitPairs 1 1).length = 1 * 1 :=
  serializer_diagnostics_recompute specOrbit () false 1 (fun _ _ => [0, 0, 0, 0, 0, 0, 0, 0, 0])
    (fun _ _ => 0) 1 1 0 0 (by decide) (by decide)

end Orvara
